import Mathlib

/-!
Verification of the MyHours frontend (timesheet tracker).

The TypeScript source is shallowly embedded: each React page's pure view
logic (which buttons are rendered/enabled, which data a query fetches,
which totals are displayed) becomes a Lean function on the page's fetched
data and local state.  TypeScript `undefined`/optional values become
`Option`, string-literal union types stay `String` (the code compares
them with `===`), and JS numbers used for hour amounts become `Rat`.
-/

namespace MyHours

/-! ## Data model (frontend/src/types/index.ts) -/

structure User where
  id : String
  email : String
  first_name : String
  last_name : String
  full_name : String
  hire_date : String
  pay_period_group : String
  is_manager : Bool
  is_admin : Bool
  is_active : Bool
deriving DecidableEq, Repr

structure PayPeriod where
  id : String
  period_group : String
  start_date : String
  end_date : String
  payroll_run_date : Option String
  status : String
deriving DecidableEq, Repr

structure Timesheet where
  id : String
  employee_id : String
  employee_name : Option String
  pay_period_id : String
  status : String
  submitted_at : Option String
  approved_at : Option String
  approved_by : Option String
  rejection_reason : Option String
  created_at : String
  updated_at : String
deriving DecidableEq, Repr

structure TimeEntry where
  id : String
  timesheet_id : String
  work_date : String
  client_id : Option String
  location_id : Option String
  job_code_id : Option String
  service_type_id : Option String
  work_mode : String
  hours : Rat
  start_time : Option String
  end_time : Option String
  description : Option String
  is_billable : Bool
  is_overtime : Bool
  vehicle_reimbursement_tier : Option String
  bonus_eligible : Bool
  created_at : String
  updated_at : String
deriving DecidableEq, Repr

structure PTOEntry where
  id : String
  timesheet_id : String
  pto_date : String
  pto_type : String
  hours : Rat
  notes : Option String
deriving DecidableEq, Repr

/-! ## JS string comparison

JS compares strings with `<` lexicographically by code unit; for the ASCII
`yyyy-MM-dd` strings at issue this is lexicographic comparison of the
character lists. -/

/-- JS `s < t` on strings. -/
def jsLt (s t : String) : Bool := decide (s.data < t.data)

/-- JS `s <= t` on strings: string comparison is total, so `s <= t` iff `¬(t < s)`. -/
def jsLe (s t : String) : Bool := !jsLt t s

/-! ## frontend/src/timesheetStatus.ts -/

/-- Source `isTimesheetEditable(status)`: `status === 'draft' || status === 'rejected'`.
The argument is `Timesheet['status'] | undefined`. -/
def isTimesheetEditable (status : Option String) : Bool :=
  status == some "draft" || status == some "rejected"

/-- Source `isTimesheetReadOnly(status)`: `status === 'submitted' || status === 'approved'`. -/
def isTimesheetReadOnly (status : Option String) : Bool :=
  status == some "submitted" || status == some "approved"

/-- Source `getEntryDateMax(endDate?)`: `undefined` when `endDate` is absent, else
`endDate < today ? endDate : today` where `today` is `format(new Date(), 'yyyy-MM-dd')`
(a parameter here) and `<` is JS lexicographic string comparison. -/
def getEntryDateMax (today : String) (endDate : Option String) : Option String :=
  match endDate with
  | none => none
  | some e => some (if jsLt e today then e else today)

/-! ## frontend/src/pages/Timesheets.tsx (list view) -/

namespace Timesheets

/-- Source `const isManager = user?.is_manager || user?.is_admin` (falsy when `user` is
undefined). -/
def isManager (user : Option User) : Bool :=
  (user.map fun u => u.is_manager || u.is_admin).getD false

/-- The manager-actions block renders `Reopen as Draft` under
`isManager && (timesheet.status === 'approved' || timesheet.status === 'submitted')`. -/
def reopenOffered (user : Option User) (ts : Timesheet) : Bool :=
  isManager user && (ts.status == "approved" || ts.status == "submitted")

/-- The Delete button (and its Confirm flow) is rendered for every row inside the
`isManager && (...)` block, with no condition on the timesheet's status. -/
def deleteOffered (user : Option User) (_ts : Timesheet) : Bool :=
  isManager user

end Timesheets

/-! ## frontend/src/pages/Approvals.tsx -/

namespace Approvals

/-- Source `getTotalHours(entries)`: `entries?.reduce((sum, entry) => sum + Number(entry.hours), 0) || 0`.
Only time entries are passed; the page never fetches PTO entries. -/
def getTotalHours (entries : Option (List TimeEntry)) : Rat :=
  (entries.map fun l => l.foldl (fun sum entry => sum + entry.hours) 0).getD 0

/-- JS `String.prototype.trim()`: drop leading and trailing whitespace. -/
def jsTrim (s : String) : String :=
  String.mk (((s.data.dropWhile Char.isWhitespace).reverse.dropWhile
    Char.isWhitespace).reverse)

/-- The Reject confirmation button's `disabled` attribute:
`!rejectionReason.trim() || rejectMutation.isPending` (the empty string is the
only falsy value `trim()` can produce). -/
def rejectButtonDisabled (rejectionReason : String) (isPending : Bool) : Bool :=
  jsTrim rejectionReason == "" || isPending

/-- Clicking the Reject confirmation button runs
`rejectMutation.mutate({ id: showRejectModal, reason: rejectionReason })`; the modal
only exists when `showRejectModal` is set, and a disabled button cannot be clicked.
Returns the `(id, reason)` payload a click would dispatch, if any. -/
def rejectRequest (showRejectModal : Option String) (rejectionReason : String)
    (isPending : Bool) : Option (String × String) :=
  match showRejectModal with
  | none => none
  | some id =>
      if rejectButtonDisabled rejectionReason isPending then none
      else some (id, rejectionReason)

end Approvals

/-! ## frontend/src/pages/TimesheetDetail.tsx -/

namespace TimesheetDetail

/-- Source `totalWorkHours = entries?.reduce((sum, entry) => sum + Number(entry.hours), 0) || 0`. -/
def totalWorkHours (entries : Option (List TimeEntry)) : Rat :=
  (entries.map fun l => l.foldl (fun sum entry => sum + entry.hours) 0).getD 0

/-- Source `totalPTOHours = ptoEntries?.reduce((sum, entry) => sum + Number(entry.hours), 0) || 0`. -/
def totalPTOHours (ptoEntries : Option (List PTOEntry)) : Rat :=
  (ptoEntries.map fun l => l.foldl (fun sum entry => sum + entry.hours) 0).getD 0

/-- Source `totalHours = totalWorkHours + totalPTOHours`, the figure the summary card shows. -/
def totalHours (entries : Option (List TimeEntry)) (ptoEntries : Option (List PTOEntry)) : Rat :=
  totalWorkHours entries + totalPTOHours ptoEntries

/-- Source `canEdit = timesheet?.status === 'draft' || timesheet?.status === 'rejected'`;
gates the Add Time / Add PTO links and the per-entry edit and delete buttons. -/
def canEdit (timesheet : Option Timesheet) : Bool :=
  timesheet.map Timesheet.status == some "draft" ||
    timesheet.map Timesheet.status == some "rejected"

/-- Source `canSubmit = canEdit && ((entries?.length ?? 0) > 0 || (ptoEntries?.length ?? 0) > 0)`;
the `Submit for Approval` button is rendered under `{canSubmit && ...}`. -/
def canSubmit (timesheet : Option Timesheet) (entries : Option (List TimeEntry))
    (ptoEntries : Option (List PTOEntry)) : Bool :=
  canEdit timesheet &&
    (decide (0 < (entries.map List.length).getD 0) ||
      decide (0 < (ptoEntries.map List.length).getD 0))

/-- The pay-period query: its key is `['payPeriod', timesheet?.pay_period_id]` and it
is enabled under `!!timesheet?.pay_period_id`, but its `queryFn` is
`() => api.getCurrentPayPeriod()` — it fetches `/pay-periods/current` (the `current`
parameter here), not `/pay-periods/{timesheet.pay_period_id}`. -/
def payPeriodShown (current : PayPeriod) (timesheet : Option Timesheet) :
    Option PayPeriod :=
  match timesheet with
  | none => none
  | some ts => if ts.pay_period_id ≠ "" then some current else none

/-- The header renders `payPeriod.start_date` – `payPeriod.end_date` from the
pay-period query's result (or a loading placeholder). -/
def headerDateRange (current : PayPeriod) (timesheet : Option Timesheet) :
    Option (String × String) :=
  (payPeriodShown current timesheet).map fun p => (p.start_date, p.end_date)

end TimesheetDetail

/-! ## frontend/src/pages/TimeEntryEdit.tsx -/

namespace TimeEntryEdit

/-- The pay-period query on the entry edit page: key `['currentPayPeriod']`,
`queryFn: api.getCurrentPayPeriod`, unconditional — always the current period,
whatever period the timesheet being edited is bound to. -/
def payPeriodShown (current : PayPeriod) : Option PayPeriod :=
  some current

/-- Source `canEdit = isTimesheetEditable(timesheet?.status)`. -/
def canEdit (timesheet : Option Timesheet) : Bool :=
  isTimesheetEditable (timesheet.map Timesheet.status)

/-- Source `maxWorkDate = getEntryDateMax(payPeriod?.end_date)`. -/
def maxWorkDate (today : String) (payPeriod : Option PayPeriod) : Option String :=
  getEntryDateMax today (payPeriod.map PayPeriod.end_date)

/-- The `min`/`max` attributes carried by a `<input type="date">`. -/
structure DateInputAttrs where
  min : Option String
  max : Option String
deriving DecidableEq, Repr

/-- An HTML date input accepts exactly the dates between its `min` and `max`
bounds (inclusive); an absent bound imposes no constraint. -/
def DateInputAttrs.accepts (attrs : DateInputAttrs) (s : String) : Bool :=
  (match attrs.min with | none => true | some lo => jsLe lo s) &&
    (match attrs.max with | none => true | some hi => jsLe s hi)

/-- The work-date input: `min={payPeriod?.start_date}` and `max={maxWorkDate}`. -/
def workDateInput (today : String) (payPeriod : Option PayPeriod) : DateInputAttrs :=
  ⟨payPeriod.map PayPeriod.start_date, maxWorkDate today payPeriod⟩

/-- The save button's `disabled` attribute:
`!canEdit || updateEntryMutation.isPending`. -/
def saveButtonDisabled (timesheet : Option Timesheet) (isPending : Bool) : Bool :=
  !canEdit timesheet || isPending

end TimeEntryEdit

/-! ## frontend/src/pages/PayPeriods.tsx -/

namespace PayPeriods

/-- The Close button is rendered under `pp.status === 'open' && (...)`. -/
def closeOffered (pp : PayPeriod) : Bool :=
  pp.status == "open"

/-- Inside the same `pp.status === 'open'` guard, when `confirmClose === pp.id` the
Confirm button runs `closeMutation.mutate(pp.id)`.  Returns the id a click on
Confirm would close, if the button is rendered at all. -/
def closeDispatch (pp : PayPeriod) (confirmClose : Option String) : Option String :=
  if closeOffered pp && confirmClose == some pp.id then some pp.id else none

end PayPeriods

/-! ## Dashboard page (src/unnamed/part_004) -/

namespace Dashboard

/-- Source `totalHours = entries?.reduce((sum, entry) => sum + Number(entry.hours), 0) || 0`,
shown on the current-timesheet card.  `entries` is the result of
`getTimeEntries(timesheet.id)`; the page runs no PTO query. -/
def totalHours (entries : Option (List TimeEntry)) : Rat :=
  (entries.map fun l => l.foldl (fun sum entry => sum + entry.hours) 0).getD 0

end Dashboard

/-- Spec formulation (§4.5 Aggregation Engine), for comparison with the page
computations: `totalHours(timesheet) = sum(timeEntry.hours) + sum(ptoEntry.hours)`
over that timesheet's children. -/
def specTotalHours (timeEntries : List TimeEntry) (ptoEntries : List PTOEntry) : Rat :=
  (timeEntries.map TimeEntry.hours).sum + (ptoEntries.map PTOEntry.hours).sum

/-! ## The API client's fetchApi wrapper (src/unnamed/part_005) -/

/-- What `fetchApi` observes of an HTTP response: the status code, whether
`response.json()` parses, the parsed body's `detail` field (`none` when absent
or null), and the decoded value `T` the success path would return. -/
structure ApiResponse (α : Type) where
  status : Nat
  parses : Bool
  detail : Option String
  value : α

/-- Fetch `Response.ok`: status in the inclusive range 200–299. -/
def responseOk (status : Nat) : Bool :=
  decide (200 ≤ status) && decide (status ≤ 299)

/-- Source `class ApiError extends Error` with public fields status and message. -/
structure ApiError where
  status : Nat
  message : String
deriving DecidableEq, Repr

/-- Outcome of one `fetchApi` call: `Except.error` models `throw new ApiError`,
`Except.ok none` the `undefined` returned for a 204, `Except.ok (some v)` the
parsed JSON body; `tokenRemoved` and `redirected` record the 401 side effects
(`localStorage.removeItem('token')`, `window.location.href = '/login'`). -/
structure FetchResult (α : Type) where
  outcome : Except ApiError (Option α)
  tokenRemoved : Bool
  redirected : Bool

/-- Source `error.detail || 'An error occurred'`, where `error` is the parsed body when
`response.json()` resolves and `{detail: 'An error occurred'}` when it rejects;
an absent, null or empty-string `detail` is falsy in JS. -/
def fetchErrorMessage (parses : Bool) (detail : Option String) : String :=
  if parses then
    match detail with
    | some s => if s = "" then "An error occurred" else s
    | none => "An error occurred"
  else "An error occurred"

/-- Source `fetchApi`: on `!response.ok` remove the token and redirect when the status
is 401, then throw `ApiError(status, message)`; on 204 resolve with `undefined`;
otherwise resolve with the parsed JSON body. -/
def fetchApi {α : Type} (r : ApiResponse α) : FetchResult α :=
  if !responseOk r.status then
    { outcome := Except.error ⟨r.status, fetchErrorMessage r.parses r.detail⟩
      tokenRemoved := r.status == 401
      redirected := r.status == 401 }
  else if r.status == 204 then
    { outcome := Except.ok none, tokenRemoved := false, redirected := false }
  else
    { outcome := Except.ok (some r.value), tokenRemoved := false, redirected := false }

/-! ## Calendar dates and their `yyyy-MM-dd` strings

Used to settle that lexicographic comparison of ISO date strings coincides
with chronological order. -/

/-- The ASCII digit for `n < 10`. -/
def digitChar (n : Nat) : Char := Char.ofNat (48 + n)

/-- Value of a most-significant-first digit list. -/
def digitsVal : List Nat → Nat
  | [] => 0
  | d :: ds => d * 10 ^ ds.length + digitsVal ds

/-- Two-digit zero-padded decimal expansion. -/
def pad2 (n : Nat) : List Nat := [n / 10 % 10, n % 10]

/-- Four-digit zero-padded decimal expansion. -/
def pad4 (n : Nat) : List Nat := [n / 1000 % 10, n / 100 % 10, n / 10 % 10, n % 10]

/-- A calendar date. -/
structure Date where
  year : Nat
  month : Nat
  day : Nat
deriving DecidableEq, Repr

/-- Dates a `yyyy-MM-dd` string can denote, with the calendar bounds on month
and day. -/
def Date.Valid (dt : Date) : Prop :=
  dt.year ≤ 9999 ∧ 1 ≤ dt.month ∧ dt.month ≤ 12 ∧ 1 ≤ dt.day ∧ dt.day ≤ 31

instance (dt : Date) : Decidable dt.Valid := by
  unfold Date.Valid
  infer_instance

/-- Chronological order, encoded as a single number: later dates have larger keys. -/
def Date.key (dt : Date) : Nat := dt.year * 10000 + dt.month * 100 + dt.day

/-- The character list of `format(date, 'yyyy-MM-dd')`. -/
def Date.toISOChars (dt : Date) : List Char :=
  (pad4 dt.year).map digitChar ++
    ('-' :: ((pad2 dt.month).map digitChar ++ ('-' :: (pad2 dt.day).map digitChar)))

/-- Source `format(date, 'yyyy-MM-dd')`. -/
def Date.toISO (dt : Date) : String := String.mk dt.toISOChars

/-! ## Concrete fixtures used for witnesses and counterexamples -/

/-- A manager user. -/
def egManager : User :=
  ⟨"u1", "mgr@example.com", "Mae", "Grant", "Mae Grant", "2024-01-01", "A",
    true, false, true⟩

/-- A timesheet in a given status, bound to pay period `pp1`. -/
def egTimesheet (status : String) : Timesheet :=
  ⟨"t1", "e1", none, "pp1", status, none, none, none, none,
    "2025-01-01T00:00:00", "2025-01-02T00:00:00"⟩

/-- A time entry of `h` hours. -/
def egTimeEntry (h : Rat) : TimeEntry :=
  ⟨"te1", "t1", "2025-01-07", none, none, none, none, "remote", h, none, none,
    none, true, false, none, false, "2025-01-07T00:00:00", "2025-01-07T00:00:00"⟩

/-- A PTO entry of `h` hours. -/
def egPTOEntry (h : Rat) : PTOEntry :=
  ⟨"pe1", "t1", "2025-01-08", "personal", h, none⟩

/-- The pay period `egTimesheet` is bound to (its `pay_period_id` is `pp1`). -/
def egBoundPeriod : PayPeriod :=
  ⟨"pp1", "A", "2025-01-06", "2025-01-19", none, "open"⟩

/-- A later period that is current when `egBoundPeriod` is over. -/
def egCurrentPeriod : PayPeriod :=
  ⟨"pp2", "A", "2025-02-03", "2025-02-16", none, "open"⟩

end MyHours

namespace MyHours

/-! ## Theorems -/

/-- C5: `isTimesheetEditable` is true exactly on `draft`/`rejected`,
`isTimesheetReadOnly` exactly on `submitted`/`approved`; over the four modeled
statuses the two predicates are complementary, and both are false on `undefined`.
The detail page's `canEdit` (gating entry add/edit/delete controls) coincides
with `isTimesheetEditable`, and the entry-edit save button is enabled only when
`isTimesheetEditable` holds for the parent timesheet. -/
theorem editable_readonly_partition :
    (∀ s : Option String,
        isTimesheetEditable s = true ↔ (s = some "draft" ∨ s = some "rejected")) ∧
    (∀ s : Option String,
        isTimesheetReadOnly s = true ↔ (s = some "submitted" ∨ s = some "approved")) ∧
    (∀ s ∈ (["draft", "submitted", "approved", "rejected"] : List String),
        isTimesheetReadOnly (some s) = !isTimesheetEditable (some s)) ∧
    isTimesheetEditable none = false ∧ isTimesheetReadOnly none = false ∧
    (∀ ts : Option Timesheet,
        TimesheetDetail.canEdit ts = isTimesheetEditable (ts.map Timesheet.status)) ∧
    (∀ (ts : Option Timesheet) (pending : Bool),
        TimeEntryEdit.saveButtonDisabled ts pending = false →
          isTimesheetEditable (ts.map Timesheet.status) = true) := by
  refine ⟨?_, ?_, ?_, rfl, rfl, fun ts => rfl, ?_⟩
  · intro s
    simp [isTimesheetEditable]
  · intro s
    simp [isTimesheetReadOnly]
  · intro s hs
    fin_cases hs <;> rfl
  · intro ts pending h
    simp only [TimeEntryEdit.saveButtonDisabled, TimeEntryEdit.canEdit,
      Bool.or_eq_false_iff, Bool.not_eq_false'] at h
    exact h.1

/-- C8: the `Reopen as Draft` action is rendered iff the acting user is a manager
or admin and the timesheet's status is `submitted` or `approved`; it is never
offered from `draft` or `rejected`. -/
theorem reopen_offered_iff :
    (∀ (u : Option User) (ts : Timesheet),
        Timesheets.reopenOffered u ts = true ↔
          (Timesheets.isManager u = true ∧
            (ts.status = "approved" ∨ ts.status = "submitted"))) ∧
    (∀ (u : Option User) (ts : Timesheet),
        ts.status = "draft" ∨ ts.status = "rejected" →
          Timesheets.reopenOffered u ts = false) := by
  constructor
  · intro u ts
    simp [Timesheets.reopenOffered]
  · rintro u ts (h | h) <;>
      simp [Timesheets.reopenOffered, h]

/-- Witness for `reopen_offered_iff` at a concrete manager and submitted timesheet. -/
theorem reopen_offered_iff_witness :
    Timesheets.reopenOffered
      (some ⟨"u1", "m@x.com", "M", "G", "M G", "2024-01-01", "A", true, false, true⟩)
      ⟨"t1", "e1", none, "pp1", "submitted", none, none, none, none,
        "2025-01-01", "2025-01-02"⟩ = true ∧
    Timesheets.reopenOffered
      (some ⟨"u1", "m@x.com", "M", "G", "M G", "2024-01-01", "A", true, false, true⟩)
      ⟨"t1", "e1", none, "pp1", "draft", none, none, none, none,
        "2025-01-01", "2025-01-02"⟩ = false := by
  constructor
  · exact (reopen_offered_iff.1 _ _).mpr ⟨by decide, Or.inr rfl⟩
  · exact reopen_offered_iff.2 _ _ (Or.inl rfl)

/-- C6: the `Submit for Approval` button is rendered iff the timesheet is in an
editable state and at least one time entry or PTO entry was fetched; with zero
entries of both kinds (or before either list is loaded) it cannot be triggered. -/
theorem submit_available_iff :
    (∀ (ts : Option Timesheet) (es : Option (List TimeEntry))
        (ps : Option (List PTOEntry)),
        TimesheetDetail.canSubmit ts es ps = true ↔
          (isTimesheetEditable (ts.map Timesheet.status) = true ∧
            ((es.getD []) ≠ [] ∨ (ps.getD []) ≠ []))) ∧
    (∀ ts : Option Timesheet,
        TimesheetDetail.canSubmit ts (some []) (some []) = false ∧
        TimesheetDetail.canSubmit ts none none = false) := by
  constructor
  · intro ts es ps
    have hed : TimesheetDetail.canEdit ts = isTimesheetEditable (ts.map Timesheet.status) := by
      rfl
    simp only [TimesheetDetail.canSubmit, hed, Bool.and_eq_true, Bool.or_eq_true,
      decide_eq_true_eq]
    cases es <;> cases ps <;>
      simp [List.length_pos, Option.getD]
  · intro ts
    constructor <;> simp [TimesheetDetail.canSubmit]

/-- Witness for `submit_available_iff`: an editable draft with one 8-hour time
entry can be submitted. -/
theorem submit_available_iff_witness :
    TimesheetDetail.canSubmit (some (egTimesheet "draft"))
      (some [egTimeEntry 8]) (some []) = true :=
  (submit_available_iff.1 _ _ _).mpr ⟨by decide, Or.inl (by simp)⟩

/-- C7: a reject request is dispatched only with a reason whose trimmed text is
non-empty — the confirmation button is disabled exactly when the reason trims to
the empty string (or a request is already pending), so the dispatched payload
always carries a non-trivial reason. -/
theorem reject_requires_reason :
    (∀ (reason : String) (pending : Bool),
        Approvals.rejectButtonDisabled reason pending = true ↔
          (Approvals.jsTrim reason = "" ∨ pending = true)) ∧
    (∀ (modal : Option String) (reason : String) (pending : Bool) (id r : String),
        Approvals.rejectRequest modal reason pending = some (id, r) →
          Approvals.jsTrim r ≠ "") := by
  constructor
  · intro reason pending
    simp [Approvals.rejectButtonDisabled]
  · intro modal reason pending id r h
    match modal with
    | none => simp [Approvals.rejectRequest] at h
    | some i =>
        simp only [Approvals.rejectRequest] at h
        by_cases hd : Approvals.rejectButtonDisabled reason pending = true
        · rw [if_pos hd] at h
          exact absurd h (by simp)
        · rw [if_neg hd] at h
          have hr : reason = r := congrArg Prod.snd (Option.some_inj.mp h)
          subst hr
          intro he
          exact hd (by simp [Approvals.rejectButtonDisabled, he])

/-- Witness for `reject_requires_reason` at a concrete non-empty reason. -/
theorem reject_requires_reason_witness :
    Approvals.jsTrim "missing client" ≠ "" :=
  reject_requires_reason.2 (some "t1") "missing client" false "t1" "missing client"
    (by decide)

/-- C9: the Close action and its confirm flow exist only for an `open` pay
period; the dispatched close always targets an `open` period's own id, and a
`closed` or `processed` period offers no Close action. -/
theorem close_only_when_open :
    (∀ pp : PayPeriod, PayPeriods.closeOffered pp = true ↔ pp.status = "open") ∧
    (∀ (pp : PayPeriod) (confirm : Option String) (i : String),
        PayPeriods.closeDispatch pp confirm = some i →
          pp.status = "open" ∧ i = pp.id) ∧
    (∀ pp : PayPeriod, pp.status = "closed" ∨ pp.status = "processed" →
        PayPeriods.closeOffered pp = false) := by
  refine ⟨?_, ?_, ?_⟩
  · intro pp
    simp [PayPeriods.closeOffered]
  · intro pp confirm i h
    simp only [PayPeriods.closeDispatch] at h
    by_cases hc : (PayPeriods.closeOffered pp && confirm == some pp.id) = true
    · rw [if_pos hc] at h
      have hparts := (Bool.and_eq_true _ _).mp hc
      exact ⟨by simpa [PayPeriods.closeOffered] using hparts.1,
        (Option.some_inj.mp h).symm⟩
    · rw [if_neg hc] at h
      exact absurd h (by simp)
  · rintro pp (h | h) <;> simp [PayPeriods.closeOffered, h]

/-- Witness for `close_only_when_open`: a concrete open period offers Close and
its confirm flow dispatches that period's id. -/
theorem close_only_when_open_witness :
    PayPeriods.closeOffered ⟨"pp1", "A", "2025-01-06", "2025-01-19", none, "open"⟩ = true :=
  (close_only_when_open.1 _).mpr rfl

/-- Witness for `editable_readonly_partition`: on `draft` the two predicates
disagree as the partition requires. -/
theorem editable_readonly_partition_witness :
    isTimesheetReadOnly (some "draft") = !isTimesheetEditable (some "draft") :=
  editable_readonly_partition.2.2.1 "draft" (by simp)

/-- Folding `(· + f ·)` over a list from an accumulator adds the mapped sum. -/
theorem foldl_add_map_sum {α : Type} (f : α → Rat) (l : List α) (a : Rat) :
    l.foldl (fun s e => s + f e) a = a + (l.map f).sum := by
  induction l generalizing a with
  | nil => simp
  | cons x xs ih => simp [ih, add_assoc]

/-- C2 counterexample: a timesheet whose only child is an 8-hour PTO entry has
spec total 8, but the dashboard card and the approvals expanded view (which sum
only the fetched time entries) display 0. -/
theorem dashboard_approvals_drop_pto :
    Dashboard.totalHours (some []) ≠ specTotalHours [] [egPTOEntry 8] ∧
    Approvals.getTotalHours (some []) ≠ specTotalHours [] [egPTOEntry 8] := by
  constructor <;>
    simp [Dashboard.totalHours, Approvals.getTotalHours, specTotalHours, egPTOEntry]

/-- C2 (amended): the timesheet-detail summary total equals the spec's
time-plus-PTO sum over all children, while the dashboard card and the approvals
expanded view display only the sum of time-entry hours (PTO entries are not
fetched there). -/
theorem displayed_totals :
    (∀ (t : List TimeEntry) (p : List PTOEntry),
        TimesheetDetail.totalHours (some t) (some p) = specTotalHours t p) ∧
    (∀ t : List TimeEntry,
        Dashboard.totalHours (some t) = (t.map TimeEntry.hours).sum) ∧
    (∀ t : List TimeEntry,
        Approvals.getTotalHours (some t) = (t.map TimeEntry.hours).sum) := by
  refine ⟨?_, ?_, ?_⟩
  · intro t p
    simp only [TimesheetDetail.totalHours, TimesheetDetail.totalWorkHours,
      TimesheetDetail.totalPTOHours, specTotalHours, Option.map_some', Option.getD_some]
    rw [foldl_add_map_sum, foldl_add_map_sum]
    ring
  · intro t
    simp only [Dashboard.totalHours, Option.map_some', Option.getD_some]
    rw [foldl_add_map_sum]
    ring
  · intro t
    simp only [Approvals.getTotalHours, Option.map_some', Option.getD_some]
    rw [foldl_add_map_sum]
    ring

/-- C3 counterexample: a manager is offered Delete on a `submitted` timesheet,
whose status is neither `draft` nor `rejected`. -/
theorem delete_offered_on_submitted :
    Timesheets.deleteOffered (some egManager) (egTimesheet "submitted") = true ∧
    (egTimesheet "submitted").status = "submitted" ∧
    ¬((egTimesheet "submitted").status = "draft" ∨
      (egTimesheet "submitted").status = "rejected") := by
  refine ⟨rfl, rfl, ?_⟩
  decide

/-- C3 (amended): the list view offers Delete exactly when the acting user is a
manager or admin, independently of the timesheet's status. -/
theorem delete_offered_iff :
    (∀ (u : Option User) (ts : Timesheet),
        Timesheets.deleteOffered u ts = true ↔
          (∃ usr, u = some usr ∧ (usr.is_manager = true ∨ usr.is_admin = true))) ∧
    (∀ (u : Option User) (ts₁ ts₂ : Timesheet),
        Timesheets.deleteOffered u ts₁ = Timesheets.deleteOffered u ts₂) := by
  constructor
  · intro u ts
    cases u with
    | none => simp [Timesheets.deleteOffered, Timesheets.isManager]
    | some usr => simp [Timesheets.deleteOffered, Timesheets.isManager]
  · intro u ts₁ ts₂
    rfl

/-- C1: at a state where the open timesheet is bound to period `pp1` but the
server's current period is `pp2`, the detail header shows `pp2`'s date range and
the entry edit form bounds the work-date picker by `pp2` — the current period,
not the period the timesheet is bound to. -/
theorem pages_show_current_period_not_bound :
    (egTimesheet "rejected").pay_period_id = egBoundPeriod.id ∧
    egCurrentPeriod.id ≠ egBoundPeriod.id ∧
    TimesheetDetail.payPeriodShown egCurrentPeriod (some (egTimesheet "rejected")) =
      some egCurrentPeriod ∧
    TimesheetDetail.headerDateRange egCurrentPeriod (some (egTimesheet "rejected")) =
      some ("2025-02-03", "2025-02-16") ∧
    TimeEntryEdit.workDateInput "2025-02-10"
        (TimeEntryEdit.payPeriodShown egCurrentPeriod) =
      ⟨some "2025-02-03", some "2025-02-10"⟩ := by
  refine ⟨rfl, by decide, by decide, by decide, by decide⟩

/-- Evaluating `fetchApi` on a successful non-204 response resolves with the parsed body. -/
theorem fetchApi_ok_eq {α : Type} (r : ApiResponse α) (h1 : responseOk r.status = true)
    (h2 : r.status ≠ 204) : fetchApi r = ⟨Except.ok (some r.value), false, false⟩ := by
  have h204 : (r.status == 204) = false := by simpa using h2
  simp [fetchApi, h1, h204]

/-- Evaluating `fetchApi` on a 204 resolves with `undefined`. -/
theorem fetchApi_204_eq {α : Type} (r : ApiResponse α) (h : r.status = 204) :
    fetchApi r = ⟨Except.ok none, false, false⟩ := by
  obtain ⟨st, p, d, v⟩ := r
  simp only at h
  subst h
  rfl

/-- Evaluating `fetchApi` on an unsuccessful response throws an `ApiError` carrying the
HTTP status and the computed message, removing the token exactly on 401. -/
theorem fetchApi_error_eq {α : Type} (r : ApiResponse α)
    (h : responseOk r.status = false) :
    fetchApi r = ⟨Except.error ⟨r.status, fetchErrorMessage r.parses r.detail⟩,
      r.status == 401, r.status == 401⟩ := by
  simp [fetchApi, h]

/-- C10: `fetchApi` resolves with the parsed JSON body on success, with
`undefined` on 204, and otherwise throws an `ApiError` whose status equals the
HTTP status and whose message is the server's `detail` (falling back to
`An error occurred` when the body is unparseable), removing the stored token
exactly when the status is 401; every unsuccessful response surfaces as an
error whose status is the response's — nothing is swallowed or masked. -/
theorem fetchApi_spec :
    (∀ (α : Type) (r : ApiResponse α), responseOk r.status = true → r.status ≠ 204 →
        fetchApi r = ⟨Except.ok (some r.value), false, false⟩) ∧
    (∀ (α : Type) (r : ApiResponse α), r.status = 204 →
        fetchApi r = ⟨Except.ok none, false, false⟩) ∧
    (∀ (α : Type) (r : ApiResponse α), responseOk r.status = false →
        fetchApi r = ⟨Except.error ⟨r.status, fetchErrorMessage r.parses r.detail⟩,
          r.status == 401, r.status == 401⟩) ∧
    (∀ detail : Option String, fetchErrorMessage false detail = "An error occurred") ∧
    (∀ s : String, s ≠ "" → fetchErrorMessage true (some s) = s) ∧
    (∀ (α : Type) (r : ApiResponse α) (e : ApiError),
        (fetchApi r).outcome = Except.error e →
          responseOk r.status = false ∧ e.status = r.status ∧
            (fetchApi r).tokenRemoved = (r.status == 401)) := by
  refine ⟨fun α r => fetchApi_ok_eq r, fun α r => fetchApi_204_eq r,
    fun α r => fetchApi_error_eq r, fun detail => rfl, ?_, ?_⟩
  · intro s hs
    simp [fetchErrorMessage, hs]
  · intro α r e h
    by_cases hok : responseOk r.status = true
    · exfalso
      by_cases h204 : r.status = 204
      · rw [fetchApi_204_eq r h204] at h
        exact absurd h (by simp)
      · rw [fetchApi_ok_eq r hok h204] at h
        exact absurd h (by simp)
    · have hf : responseOk r.status = false := by
        simpa using hok
      rw [fetchApi_error_eq r hf] at h ⊢
      refine ⟨hf, ?_, rfl⟩
      have := Except.error.inj h
      rw [← this]

/-- Witness for `fetchApi_spec`: a 500 with an unparseable body throws
`ApiError(500, 'An error occurred')` without touching the token. -/
theorem fetchApi_spec_witness :
    fetchApi (α := Nat) ⟨500, false, none, 0⟩ =
      ⟨Except.error ⟨500, "An error occurred"⟩, false, false⟩ :=
  fetchApi_spec.2.2.1 Nat ⟨500, false, none, 0⟩ rfl

/-! ### Lexicographic order on ISO date strings vs chronological order -/

/-- Digit characters compare like their digits. -/
theorem digitChar_lt_iff {a b : Nat} (ha : a < 10) (hb : b < 10) :
    digitChar a < digitChar b ↔ a < b := by
  interval_cases a <;> interval_cases b <;> decide

/-- Digit characters are equal exactly when their digits are. -/
theorem digitChar_eq_iff {a b : Nat} (ha : a < 10) (hb : b < 10) :
    digitChar a = digitChar b ↔ a = b := by
  interval_cases a <;> interval_cases b <;> decide

/-- Head-first characterization of the lexicographic order on char lists. -/
theorem charList_cons_lt_iff (a b : Char) (as bs : List Char) :
    a :: as < b :: bs ↔ (a < b ∨ (a = b ∧ as < bs)) := by
  constructor
  · intro h
    cases h with
    | cons h => exact Or.inr ⟨rfl, h⟩
    | rel h => exact Or.inl h
  · rintro (h | ⟨rfl, h⟩)
    · exact List.Lex.rel h
    · exact List.Lex.cons h

/-- The value of a digit list is below the power matching its length. -/
theorem digitsVal_lt (l : List Nat) (h : ∀ x ∈ l, x < 10) :
    digitsVal l < 10 ^ l.length := by
  induction l with
  | nil => simp [digitsVal]
  | cons d ds ih =>
      have hd : d ≤ 9 := by
        have := h d (by simp)
        omega
      have hds : digitsVal ds < 10 ^ ds.length :=
        ih fun x hx => h x (by simp [hx])
      have h1 : d * 10 ^ ds.length ≤ 9 * 10 ^ ds.length :=
        Nat.mul_le_mul_right _ hd
      calc digitsVal (d :: ds) = d * 10 ^ ds.length + digitsVal ds := rfl
        _ ≤ 9 * 10 ^ ds.length + digitsVal ds := by omega
        _ < 9 * 10 ^ ds.length + 10 ^ ds.length := by omega
        _ = 10 ^ (ds.length + 1) := by ring
        _ = 10 ^ (d :: ds).length := by simp

/-- Comparing numbers through their leading place value. -/
theorem msd_lt_iff (x y v w P : Nat) (hv : v < P) (hw : w < P) :
    x * P + v < y * P + w ↔ (x < y ∨ (x = y ∧ v < w)) := by
  constructor
  · intro h
    rcases Nat.lt_trichotomy x y with hxy | hxy | hxy
    · exact Or.inl hxy
    · subst hxy
      exact Or.inr ⟨rfl, Nat.lt_of_add_lt_add_left h⟩
    · exfalso
      have h1 : y * P + w < y * P + P := Nat.add_lt_add_left hw _
      have h2 : y * P + P = (y + 1) * P := (Nat.succ_mul y P).symm
      have h3 : (y + 1) * P ≤ x * P := Nat.mul_le_mul_right P (by omega)
      have h4 : y * P + w < x * P + v :=
        lt_of_lt_of_le (h2 ▸ h1) (le_trans h3 (Nat.le_add_right _ _))
      exact Nat.lt_asymm h h4
  · rintro (hxy | ⟨rfl, hvw⟩)
    · have h1 : x * P + v < x * P + P := Nat.add_lt_add_left hv _
      have h2 : x * P + P = (x + 1) * P := (Nat.succ_mul x P).symm
      have h3 : (x + 1) * P ≤ y * P := Nat.mul_le_mul_right P (by omega)
      exact lt_of_lt_of_le (h2 ▸ h1) (le_trans h3 (Nat.le_add_right _ _))
    · exact Nat.add_lt_add_left hvw _

/-- Lexicographic comparison of equal-length digit blocks followed by arbitrary
tails: block values decide, ties fall through to the tails. -/
theorem digits_append_lt_iff :
    ∀ (a₁ a₂ : List Nat) (t₁ t₂ : List Char), a₁.length = a₂.length →
      (∀ x ∈ a₁, x < 10) → (∀ x ∈ a₂, x < 10) →
      (a₁.map digitChar ++ t₁ < a₂.map digitChar ++ t₂ ↔
        (digitsVal a₁ < digitsVal a₂ ∨ (a₁ = a₂ ∧ t₁ < t₂)))
  | [], [], t₁, t₂, _, _, _ => by simp [digitsVal]
  | [], y :: ys, t₁, t₂, hlen, _, _ => by simp at hlen
  | x :: xs, [], t₁, t₂, hlen, _, _ => by simp at hlen
  | x :: xs, y :: ys, t₁, t₂, hlen, h₁, h₂ => by
      have hx : x < 10 := h₁ x (by simp)
      have hy : y < 10 := h₂ y (by simp)
      have hlen' : xs.length = ys.length := by simpa using hlen
      have ih := digits_append_lt_iff xs ys t₁ t₂ hlen'
        (fun a ha => h₁ a (by simp [ha])) (fun a ha => h₂ a (by simp [ha]))
      have hval : digitsVal (x :: xs) < digitsVal (y :: ys) ↔
          (x < y ∨ (x = y ∧ digitsVal xs < digitsVal ys)) := by
        have hvx : digitsVal xs < 10 ^ xs.length :=
          digitsVal_lt xs fun a ha => h₁ a (by simp [ha])
        have hvy : digitsVal ys < 10 ^ xs.length := by
          rw [hlen']
          exact digitsVal_lt ys fun a ha => h₂ a (by simp [ha])
        calc digitsVal (x :: xs) < digitsVal (y :: ys) ↔
            x * 10 ^ xs.length + digitsVal xs < y * 10 ^ xs.length + digitsVal ys := by
              simp [digitsVal, hlen']
          _ ↔ (x < y ∨ (x = y ∧ digitsVal xs < digitsVal ys)) :=
              msd_lt_iff x y _ _ _ hvx hvy
      rw [List.map_cons, List.map_cons, List.cons_append, List.cons_append,
        charList_cons_lt_iff, digitChar_lt_iff hx hy, digitChar_eq_iff hx hy, ih,
        hval, List.cons_eq_cons]
      tauto

/-- Equal-length digit blocks with equal values are equal. -/
theorem digits_eq_of_val_eq :
    ∀ (a₁ a₂ : List Nat), a₁.length = a₂.length →
      (∀ x ∈ a₁, x < 10) → (∀ x ∈ a₂, x < 10) →
      digitsVal a₁ = digitsVal a₂ → a₁ = a₂
  | [], [], _, _, _, _ => rfl
  | [], y :: ys, hlen, _, _, _ => by simp at hlen
  | x :: xs, [], hlen, _, _, _ => by simp at hlen
  | x :: xs, y :: ys, hlen, h₁, h₂, hval => by
      have hlen' : xs.length = ys.length := by simpa using hlen
      have hvx : digitsVal xs < 10 ^ xs.length :=
        digitsVal_lt xs fun a ha => h₁ a (by simp [ha])
      have hvy : digitsVal ys < 10 ^ xs.length := by
        rw [hlen']
        exact digitsVal_lt ys fun a ha => h₂ a (by simp [ha])
      have hcons : x * 10 ^ xs.length + digitsVal xs =
          y * 10 ^ xs.length + digitsVal ys := by
        simpa [digitsVal, hlen'] using hval
      have hxy : x = y := by
        rcases Nat.lt_trichotomy x y with hlt | heq | hgt
        · have := (msd_lt_iff x y _ _ _ hvx hvy).mpr (Or.inl hlt)
          omega
        · exact heq
        · have := (msd_lt_iff y x _ _ _ hvy hvx).mpr (Or.inl hgt)
          omega
      subst hxy
      have hv : digitsVal xs = digitsVal ys := by omega
      rw [digits_eq_of_val_eq xs ys hlen'
        (fun a ha => h₁ a (by simp [ha])) (fun a ha => h₂ a (by simp [ha])) hv]

/-- Padding `pad4` recovers its input below 10000. -/
theorem digitsVal_pad4 (n : Nat) (h : n ≤ 9999) : digitsVal (pad4 n) = n := by
  simp [pad4, digitsVal]
  omega

/-- Padding `pad2` recovers its input below 100. -/
theorem digitsVal_pad2 (n : Nat) (h : n ≤ 99) : digitsVal (pad2 n) = n := by
  simp [pad2, digitsVal]
  omega

/-- Padding `pad4` produces digits. -/
theorem pad4_digits (n : Nat) : ∀ x ∈ pad4 n, x < 10 := by
  simp [pad4]
  omega

/-- Padding `pad2` produces digits. -/
theorem pad2_digits (n : Nat) : ∀ x ∈ pad2 n, x < 10 := by
  simp [pad2]
  omega

/-- Padding `pad4` is injective below 10000. -/
theorem pad4_eq_iff {a b : Nat} (ha : a ≤ 9999) (hb : b ≤ 9999) :
    pad4 a = pad4 b ↔ a = b := by
  constructor
  · intro h
    have := congrArg digitsVal h
    rwa [digitsVal_pad4 a ha, digitsVal_pad4 b hb] at this
  · intro h
    rw [h]

/-- Padding `pad2` is injective below 100. -/
theorem pad2_eq_iff {a b : Nat} (ha : a ≤ 99) (hb : b ≤ 99) :
    pad2 a = pad2 b ↔ a = b := by
  constructor
  · intro h
    have := congrArg digitsVal h
    rwa [digitsVal_pad2 a ha, digitsVal_pad2 b hb] at this
  · intro h
    rw [h]

/-- Equal heads pass lexicographic comparison to the tails. -/
theorem charList_same_head_lt_iff (c : Char) (t₁ t₂ : List Char) :
    c :: t₁ < c :: t₂ ↔ t₁ < t₂ := by
  rw [charList_cons_lt_iff]
  simp [lt_irrefl]

/-- A pure digit-block comparison (no tails). -/
theorem digits_lt_iff (a₁ a₂ : List Nat) (hlen : a₁.length = a₂.length)
    (h₁ : ∀ x ∈ a₁, x < 10) (h₂ : ∀ x ∈ a₂, x < 10) :
    (a₁.map digitChar < a₂.map digitChar ↔ digitsVal a₁ < digitsVal a₂) := by
  have h := digits_append_lt_iff a₁ a₂ [] [] hlen h₁ h₂
  simpa using h

/-- Lexicographic comparison of `yyyy-MM-dd` strings coincides with
chronological order on the dates they denote. -/
theorem toISO_lt_iff_key_lt (d₁ d₂ : Date) (h₁ : d₁.Valid) (h₂ : d₂.Valid) :
    (jsLt d₁.toISO d₂.toISO = true ↔ d₁.key < d₂.key) := by
  obtain ⟨hy₁, hm₁l, hm₁u, hd₁l, hd₁u⟩ := h₁
  obtain ⟨hy₂, hm₂l, hm₂u, hd₂l, hd₂u⟩ := h₂
  have hm₁ : d₁.month ≤ 99 := by omega
  have hm₂ : d₂.month ≤ 99 := by omega
  have hdd₁ : d₁.day ≤ 99 := by omega
  have hdd₂ : d₂.day ≤ 99 := by omega
  simp only [jsLt, decide_eq_true_eq]
  show Date.toISOChars d₁ < Date.toISOChars d₂ ↔ _
  unfold Date.toISOChars
  rw [digits_append_lt_iff (pad4 d₁.year) (pad4 d₂.year) _ _ rfl
      (pad4_digits _) (pad4_digits _),
    charList_same_head_lt_iff,
    digits_append_lt_iff (pad2 d₁.month) (pad2 d₂.month) _ _ rfl
      (pad2_digits _) (pad2_digits _),
    charList_same_head_lt_iff,
    digits_lt_iff (pad2 d₁.day) (pad2 d₂.day) rfl (pad2_digits _) (pad2_digits _),
    digitsVal_pad4 _ hy₁, digitsVal_pad4 _ hy₂,
    digitsVal_pad2 _ hm₁, digitsVal_pad2 _ hm₂,
    digitsVal_pad2 _ hdd₁, digitsVal_pad2 _ hdd₂,
    pad4_eq_iff hy₁ hy₂, pad2_eq_iff hm₁ hm₂]
  unfold Date.key
  omega

/-- Comparison `jsLe` decides the ambient lexicographic `≤` on the character lists. -/
theorem jsLe_iff (s t : String) : jsLe s t = true ↔ s.data ≤ t.data := by
  simp [jsLe, jsLt, not_lt]

/-- C4: the work-date input's `min` is the period's `start_date` and its `max`
is `getEntryDateMax(end_date)`, which returns the end date when it is before
today and today otherwise (and `undefined` for an absent end date); the input
accepts exactly the dates in `[start_date, min(end_date, today)]`; and
lexicographic comparison of `yyyy-MM-dd` strings coincides with chronological
order on the dates they denote. -/
theorem work_date_window :
    (∀ today : String, getEntryDateMax today none = none) ∧
    (∀ today e : String, jsLt e today = true →
        getEntryDateMax today (some e) = some e) ∧
    (∀ today e : String, jsLt e today = false →
        getEntryDateMax today (some e) = some today) ∧
    (∀ (today : String) (pp : PayPeriod),
        TimeEntryEdit.workDateInput today (some pp) =
          ⟨some pp.start_date, getEntryDateMax today (some pp.end_date)⟩) ∧
    (∀ (today : String) (pp : PayPeriod) (s : String),
        (TimeEntryEdit.workDateInput today (some pp)).accepts s = true ↔
          (pp.start_date.data ≤ s.data ∧ s.data ≤ pp.end_date.data ∧
            s.data ≤ today.data)) ∧
    (∀ d₁ d₂ : Date, d₁.Valid → d₂.Valid →
        (jsLt d₁.toISO d₂.toISO = true ↔ d₁.key < d₂.key)) := by
  refine ⟨fun today => rfl, ?_, ?_, fun today pp => rfl, ?_, toISO_lt_iff_key_lt⟩
  · intro today e h
    simp [getEntryDateMax, h]
  · intro today e h
    simp [getEntryDateMax, h]
  · intro today pp s
    have hacc : (TimeEntryEdit.workDateInput today (some pp)).accepts s =
        (jsLe pp.start_date s &&
          jsLe s (if jsLt pp.end_date today then pp.end_date else today)) := rfl
    rw [hacc]
    by_cases hc : jsLt pp.end_date today = true
    · have he : pp.end_date.data < today.data := by
        simpa [jsLt] using hc
      simp only [hc, if_true, Bool.and_eq_true, jsLe_iff]
      constructor
      · rintro ⟨h1, h2⟩
        exact ⟨h1, h2, le_trans h2 (le_of_lt he)⟩
      · rintro ⟨h1, h2, h3⟩
        exact ⟨h1, h2⟩
    · have he : today.data ≤ pp.end_date.data := by
        have hn : ¬ pp.end_date.data < today.data := by
          simpa [jsLt] using hc
        exact not_lt.mp hn
      simp only [Bool.not_eq_true] at hc
      simp only [hc, if_false, Bool.and_eq_true, jsLe_iff]
      constructor
      · rintro ⟨h1, h2⟩
        exact ⟨h1, le_trans h2 he, h2⟩
      · rintro ⟨h1, h2, h3⟩
        exact ⟨h1, h3⟩

/-- Witness for `work_date_window`: concrete dates inside February 2025, and the
chronological comparison of two concrete January dates. -/
theorem work_date_window_witness :
    getEntryDateMax "2025-02-10" (some "2025-02-08") = some "2025-02-08" ∧
    (jsLt (Date.toISO ⟨2025, 1, 6⟩) (Date.toISO ⟨2025, 1, 13⟩) = true ↔
      Date.key ⟨2025, 1, 6⟩ < Date.key ⟨2025, 1, 13⟩) := by
  constructor
  · exact work_date_window.2.1 "2025-02-10" "2025-02-08" (by decide)
  · exact work_date_window.2.2.2.2.2 ⟨2025, 1, 6⟩ ⟨2025, 1, 13⟩ (by decide) (by decide)

end MyHours
